import Mathlib

/-!
Verification of the RunAssistAI run-tracking engine (src/runtrack).

This file shallowly embeds the parts of `src/runtrack/repository.py` and
`src/runtrack/services.py` that the verified claims are about:

* the session lifecycle store (`Repo.create_active_session`,
  `Repo.add_metric`, `Repo._recalc_session_totals`, `Repo.finish_session`,
  `Repo.create_session_from_import`) together with the service wrappers
  `start_run`, `add_metric`, `stop_run`;
* the deterministic weekly planner fallback `_build_weekly_plan_stub` and
  its wrapper `build_test_weekly_ai_plan`;
* the calendar application `apply_test_weekly_ai_plan` over the
  `daily_running_plan` table;
* the time-of-day statistics `_bucket_for_hour` / `get_stats_time_of_day`.

Conventions of the embedding:

* SQLite rows become Lean structures; a table becomes a `List` of rows kept
  in insertion order (SQLite rowid order).  Row ids, produced by
  `uuid.uuid4().hex` in the source, are modelled by a fresh-counter
  `nextId`, which captures exactly the guarantee uuid generation gives the
  code: a new row id differs from every existing id.
* Python floats (distances, calorie figures) are modelled as `Rat`;
  instants (ISO-8601 UTC strings in the source) are modelled as `Int`
  seconds; ISO string comparison used by the source corresponds to instant
  comparison.  `HH:MM` strings are modelled by an hour/minute pair.
* Fallible operations return `Except Err`, one constructor per distinct
  `ValueError` message raised by the source.
* The user-existence check `repo.get_user_by_id` performed by the service
  wrappers only gates execution (it raises before touching session state)
  and the settings lookup only supplies the `calories_per_hour` number, so
  both are modelled by parameters: the user id and rate of each operation
  are universally quantified instead of read from a users/settings table.
-/

namespace RunTrack

/-- The distinct `ValueError`s of the embedded operations, one constructor
per message raised in `repository.py` / `services.py`. -/
inductive Err where
  /-- "Active session already exists" (`Repo.create_active_session`). -/
  | conflictActiveExists
  /-- "session not found" (`Repo.finish_session`). -/
  | sessionNotFound
  /-- "No active session for this user" (`services.add_metric` / `stop_run`). -/
  | noActiveSession
  /-- "user not found" (service-level user check). -/
  | userNotFound
  deriving Repr, DecidableEq

/-- A row of the `metrics` table. -/
structure Metric where
  sessionId : Nat
  distance : Rat
  durationSeconds : Int
  startTime : Option Int
  endTime : Option Int
  deriving Repr, DecidableEq

/-- A row of the `sessions` table.  `endedAt = none` is the SQL NULL of an
active session; `caloriesPerHour` is the rate captured at session start. -/
structure Session where
  id : Nat
  userId : Nat
  startedAt : Int
  endedAt : Option Int
  totalDistanceKm : Rat
  totalDurationSeconds : Int
  totalCalories : Rat
  caloriesPerHour : Rat
  note : Option String
  deriving Repr, DecidableEq

/-- The session/metric part of the store. -/
structure RepoState where
  sessions : List Session
  metrics : List Metric
  nextId : Nat
  deriving Repr, DecidableEq

def emptyRepo : RepoState := ⟨[], [], 0⟩

/-- The `WHERE user_id=? AND ended_at IS NULL` predicate. -/
def isActiveFor (uid : Nat) (s : Session) : Bool :=
  s.userId == uid && s.endedAt == none

/-- `Repo.get_active_session`: the open session of a user.  The source
orders by `started_at DESC LIMIT 1`; under the single-active-session
invariant proved below the matching set has at most one element, so the
first match of the stored list is the same row. -/
def getActiveSession (st : RepoState) (uid : Nat) : Option Session :=
  st.sessions.find? (isActiveFor uid)

/-- `Repo.create_active_session`: refuse if an open session exists,
otherwise insert a fresh all-zero session capturing the rate. -/
def createActiveSession (st : RepoState) (uid : Nat) (note : Option String)
    (caloriesPerHour : Rat) (now : Int) : Except Err (RepoState × Session) :=
  if (getActiveSession st uid).isSome then
    .error .conflictActiveExists
  else
    let s : Session :=
      ⟨st.nextId, uid, now, none, 0, 0, 0, caloriesPerHour, note⟩
    .ok ({ st with sessions := st.sessions ++ [s], nextId := st.nextId + 1 }, s)

/-- The metric rows of one session (`WHERE session_id=?`). -/
def metricsFor (st : RepoState) (sid : Nat) : List Metric :=
  st.metrics.filter (fun m => m.sessionId == sid)

/-- `Repo._recalc_session_totals`: overwrite the session totals with the
sums over all of its metric rows; calories are duration-hours times the
captured rate.  (`SUM(...) or 0` of the source is the sum of the possibly
empty list; the single `calories_per_hour` the source fetches for the id is
each updated row's own captured rate, ids being unique.) -/
def recalcSessionTotals (st : RepoState) (sid : Nat) : RepoState :=
  let ms := metricsFor st sid
  let totalDist : Rat := (ms.map (·.distance)).sum
  let totalDur : Int := (ms.map (·.durationSeconds)).sum
  { st with sessions := st.sessions.map (fun s =>
      if s.id == sid then
        { s with totalDistanceKm := totalDist,
                 totalDurationSeconds := totalDur,
                 totalCalories := ((totalDur : Rat) / 3600) * s.caloriesPerHour }
      else s) }

/-- `Repo.add_metric`: append the metric row (no validation is performed on
distance or duration), then recompute the parent session's totals. -/
def repoAddMetric (st : RepoState) (sid : Nat) (dist : Rat) (dur : Int)
    (startTime endTime : Option Int) : RepoState × Metric :=
  let m : Metric := ⟨sid, dist, dur, startTime, endTime⟩
  let st1 : RepoState := { st with metrics := st.metrics ++ [m] }
  (recalcSessionTotals st1 sid, m)

/-- `Repo.finish_session`: resolve the final duration (caller override,
clamped at 0; else the accumulated duration; else, only when that is zero,
`now - started_at` clamped at 0 — `started_at` is a NOT NULL column, so its
truthiness test in the source always passes), recompute calories from the
resolved duration and the captured rate, optionally override the distance,
and set `ended_at` to now, unconditionally. -/
def finishSession (st : RepoState) (sid : Nat) (totalDistanceKm : Option Rat)
    (elapsedSeconds : Option Int) (now : Int) : Except Err (RepoState × Session) :=
  match st.sessions.find? (fun s => s.id == sid) with
  | none => .error .sessionNotFound
  | some s =>
    let dur : Int :=
      match elapsedSeconds with
      | some e => max 0 e
      | none =>
        if s.totalDurationSeconds = 0 then max 0 (now - s.startedAt)
        else s.totalDurationSeconds
    let totalCal : Rat := ((dur : Rat) / 3600) * s.caloriesPerHour
    let newDist : Rat := totalDistanceKm.getD s.totalDistanceKm
    let upd : Session → Session := fun t =>
      if t.id == sid then
        { t with totalDistanceKm := newDist, totalDurationSeconds := dur,
                 totalCalories := totalCal, endedAt := some now }
      else t
    .ok ({ st with sessions := st.sessions.map upd }, upd s)

/-- `services.start_run` (after the user check; the captured rate argument
is the settings value `get_or_create_user_settings` supplies). -/
def startRun (st : RepoState) (uid : Nat) (note : Option String)
    (caloriesPerHour : Rat) (now : Int) : Except Err (RepoState × Session) :=
  createActiveSession st uid note caloriesPerHour now

/-- `services.add_metric`: require an active session, then append. -/
def serviceAddMetric (st : RepoState) (uid : Nat) (dist : Rat) (dur : Int)
    (startTime endTime : Option Int) : Except Err (RepoState × Metric) :=
  match getActiveSession st uid with
  | none => .error .noActiveSession
  | some a => .ok (repoAddMetric st a.id dist dur startTime endTime)

/-- `services.stop_run`: require an active session, then finish it. -/
def stopRun (st : RepoState) (uid : Nat) (totalDistanceKm : Option Rat)
    (elapsedSeconds : Option Int) (now : Int) : Except Err (RepoState × Session) :=
  match getActiveSession st uid with
  | none => .error .noActiveSession
  | some a => finishSession st a.id totalDistanceKm elapsedSeconds now

/-- `Repo.create_session_from_import`: insert an already-ended session
(backfill path used by the Strava import), then store its single metric,
which re-runs the totals recomputation. -/
def createSessionFromImport (st : RepoState) (uid : Nat) (startedAt : Int)
    (durationSeconds : Int) (distanceKm : Rat) (caloriesPerHour : Rat)
    (note : Option String) (caloriesTotal : Option Rat) : RepoState :=
  let endedAt : Int := startedAt + max 0 durationSeconds
  let totalHours : Rat := max 0 ((durationSeconds : Rat) / 3600)
  let totalCal : Rat := caloriesTotal.getD (totalHours * caloriesPerHour)
  let s : Session := ⟨st.nextId, uid, startedAt, some endedAt, distanceKm,
      durationSeconds, totalCal, caloriesPerHour, note⟩
  let st1 : RepoState :=
    { st with sessions := st.sessions ++ [s], nextId := st.nextId + 1 }
  (repoAddMetric st1 s.id distanceKm durationSeconds
    (some startedAt) (some endedAt)).1

/-- One engine operation, with every caller-controlled datum (user id,
note, rate, clock reading, measurements, import payload) as a parameter. -/
inductive Op where
  | startRun (uid : Nat) (note : Option String) (cph : Rat) (now : Int)
  | addMetric (uid : Nat) (dist : Rat) (dur : Int)
      (startTime endTime : Option Int)
  | stopRun (uid : Nat) (dist : Option Rat) (elapsed : Option Int) (now : Int)
  | importSession (uid : Nat) (startedAt : Int) (dur : Int) (dist : Rat)
      (cph : Rat) (note : Option String) (calTotal : Option Rat)

/-- Apply one operation; a raised `ValueError` leaves the store unchanged
(the failing operations above raise before their first INSERT/UPDATE). -/
def applyOp (st : RepoState) (op : Op) : RepoState :=
  match op with
  | .startRun uid note cph now =>
    match startRun st uid note cph now with
    | .ok (st', _) => st'
    | .error _ => st
  | .addMetric uid dist dur t1 t2 =>
    match serviceAddMetric st uid dist dur t1 t2 with
    | .ok (st', _) => st'
    | .error _ => st
  | .stopRun uid d e now =>
    match stopRun st uid d e now with
    | .ok (st', _) => st'
    | .error _ => st
  | .importSession uid sa dur dist cph note ct =>
    createSessionFromImport st uid sa dur dist cph note ct

/-- The store reached from an empty database by a sequence of operations. -/
def runOps (ops : List Op) : RepoState := ops.foldl applyOp emptyRepo

/-- Number of open (`ended_at IS NULL`) sessions of a user. -/
def activeCount (uid : Nat) (st : RepoState) : Nat :=
  st.sessions.countP (isActiveFor uid)

theorem activeCount_recalc (uid : Nat) (st : RepoState) (sid : Nat) :
    activeCount uid (recalcSessionTotals st sid) = activeCount uid st := by
  unfold activeCount recalcSessionTotals
  rw [List.countP_map]
  refine List.countP_congr fun s _ => ?_
  by_cases h : s.id = sid <;> simp [isActiveFor, h]

theorem activeCount_repoAddMetric (uid : Nat) (st : RepoState) (sid : Nat)
    (dist : Rat) (dur : Int) (t1 t2 : Option Int) :
    activeCount uid (repoAddMetric st sid dist dur t1 t2).1 = activeCount uid st := by
  unfold repoAddMetric
  rw [activeCount_recalc]
  rfl

theorem activeCount_append_inactive (uid : Nat) (st : RepoState) (s : Session)
    (hs : isActiveFor uid s = false) :
    activeCount uid { st with sessions := st.sessions ++ [s],
                              nextId := st.nextId + 1 } = activeCount uid st := by
  unfold activeCount
  simp [List.countP_append, List.countP_cons, hs]

theorem activeCount_finish_le (uid : Nat) (st : RepoState) (sid : Nat)
    (d : Option Rat) (e : Option Int) (now : Int) (st' : RepoState) (r : Session)
    (h : finishSession st sid d e now = .ok (st', r)) :
    activeCount uid st' ≤ activeCount uid st := by
  unfold finishSession at h
  cases hf : st.sessions.find? (fun s => s.id == sid) with
  | none => rw [hf] at h; exact absurd h (by simp)
  | some s =>
    rw [hf] at h
    simp only [Except.ok.injEq, Prod.mk.injEq] at h
    obtain ⟨h1, -⟩ := h
    rw [← h1]
    unfold activeCount
    rw [List.countP_map]
    refine List.countP_mono_left fun t _ ht => ?_
    by_cases hid : t.id = sid
    · simp [isActiveFor, hid] at ht
    · simpa [hid] using ht

theorem applyOp_active_le (st : RepoState) (op : Op) (uid : Nat)
    (h : activeCount uid st ≤ 1) : activeCount uid (applyOp st op) ≤ 1 := by
  cases op with
  | startRun uid2 note cph now =>
    unfold applyOp startRun createActiveSession
    cases ha : (getActiveSession st uid2).isSome with
    | true => simpa [ha] using h
    | false =>
      have hnone : st.sessions.find? (isActiveFor uid2) = none := by
        unfold getActiveSession at ha
        simpa [Option.isSome_iff_exists] using ha
      by_cases huid : uid = uid2
      · subst huid
        have hzero : activeCount uid st = 0 :=
          List.countP_eq_zero.mpr (List.find?_eq_none.mp hnone)
        unfold activeCount at hzero ⊢
        simp [ha, List.countP_append, List.countP_cons, isActiveFor, hzero]
      · unfold activeCount at h ⊢
        simp only [ha, Bool.false_eq_true, if_false, List.countP_append,
          List.countP_cons]
        have : isActiveFor uid ⟨st.nextId, uid2, now, none, 0, 0, 0, cph, note⟩
            = false := by
          simp [isActiveFor]
          intro hcontra
          exact absurd hcontra.symm huid
        simpa [this] using h
  | addMetric uid2 dist dur t1 t2 =>
    unfold applyOp serviceAddMetric
    cases ha : getActiveSession st uid2 with
    | none => simpa [ha] using h
    | some a => simpa [ha, activeCount_repoAddMetric] using h
  | stopRun uid2 d e now =>
    unfold applyOp stopRun
    cases ha : getActiveSession st uid2 with
    | none => simpa [ha] using h
    | some a =>
      cases hfin : finishSession st a.id d e now with
      | error err => simpa [ha, hfin] using h
      | ok p =>
        obtain ⟨st', r⟩ := p
        simp only [ha, hfin]
        exact le_trans (activeCount_finish_le uid st a.id d e now st' r hfin) h
  | importSession uid2 sa dur dist cph note ct =>
    unfold applyOp createSessionFromImport
    rw [activeCount_repoAddMetric]
    rw [activeCount_append_inactive]
    · exact h
    · simp [isActiveFor]

theorem runOps_activeCount_le (ops : List Op) (uid : Nat) :
    activeCount uid (runOps ops) ≤ 1 := by
  suffices h : ∀ (l : List Op) (st : RepoState), activeCount uid st ≤ 1 →
      activeCount uid (l.foldl applyOp st) ≤ 1 by
    exact h ops emptyRepo (by simp [activeCount, emptyRepo])
  intro l
  induction l with
  | nil => intro st h; simpa using h
  | cons op l ih => intro st h; exact ih _ (applyOp_active_le st op uid h)

/-- Claim C1: at every store reachable by any sequence of the engine's
operations (start, measure, stop, imports) each user has at most one
session row with a NULL end instant, and `create_active_session` fails
with the conflict error and leaves the store unchanged (no row created)
whenever an open session for that user already exists. -/
theorem single_active_session_invariant (ops : List Op) (uid : Nat)
    (st : RepoState) (uid2 : Nat) (note : Option String) (cph : Rat) (now : Int)
    (hActive : (getActiveSession st uid2).isSome = true) :
    activeCount uid (runOps ops) ≤ 1 ∧
    createActiveSession st uid2 note cph now = .error .conflictActiveExists ∧
    applyOp st (.startRun uid2 note cph now) = st := by
  refine ⟨runOps_activeCount_le ops uid, ?_, ?_⟩
  · unfold createActiveSession
    simp [hActive]
  · unfold applyOp startRun createActiveSession
    simp [hActive]

/-- A fresh open session of user 7 with all-zero totals. -/
def sessW : Session := ⟨0, 7, 0, none, 0, 0, 0, 600, none⟩

/-- A store holding one open session of user 7, used to witness the
conflict branch of the claim-C1 theorem. -/
def repoW : RepoState := ⟨[sessW], [], 1⟩

theorem single_active_session_invariant_witness :
    (getActiveSession repoW 7).isSome = true ∧
    (activeCount 7 (runOps [.startRun 7 none 600 0, .startRun 7 none 600 5]) ≤ 1 ∧
     createActiveSession repoW 7 none 600 5 = .error .conflictActiveExists ∧
     applyOp repoW (.startRun 7 none 600 5) = repoW) :=
  ⟨by decide, single_active_session_invariant
    [.startRun 7 none 600 0, .startRun 7 none 600 5] 7 repoW 7 none 600 5 (by decide)⟩

theorem find?_map_of_pred (l : List Session) (f : Session → Session)
    (p : Session → Bool) (h : ∀ s, p (f s) = p s) :
    (l.map f).find? p = (l.find? p).map f := by
  induction l with
  | nil => rfl
  | cons a l ih =>
    simp only [List.map_cons, List.find?_cons, h]
    cases hp : p a <;> simp [hp, ih]

theorem finishSession_ok (st : RepoState) (sid : Nat) (s : Session)
    (dist? : Option Rat) (elapsed? : Option Int) (now : Int)
    (hFind : st.sessions.find? (fun t => t.id == sid) = some s) :
    ∃ st' r, finishSession st sid dist? elapsed? now = .ok (st', r) ∧
      st'.sessions.find? (fun t => t.id == sid) = some r ∧
      r.totalDurationSeconds =
        (match elapsed? with
         | some e => max 0 e
         | none =>
           if s.totalDurationSeconds = 0 then max 0 (now - s.startedAt)
           else s.totalDurationSeconds) ∧
      r.totalCalories = ((r.totalDurationSeconds : Rat) / 3600) * s.caloriesPerHour ∧
      r.endedAt = some now ∧
      r.caloriesPerHour = s.caloriesPerHour := by
  have hs : (s.id == sid) = true := by
    have h := List.find?_some hFind
    simpa using h
  unfold finishSession
  rw [hFind]
  refine ⟨_, _, rfl, ?_, ?_, ?_, ?_, ?_⟩
  · rw [find?_map_of_pred]
    · rw [hFind]
      rfl
    · intro t
      by_cases ht : t.id == sid <;> simp [ht]
  · simp only [hs, if_pos]
  · simp [hs]
  · simp [hs]
  · simp [hs]

/-- Claim C3 (amended): `finish_session` resolves the final duration by
precedence: a caller-supplied `elapsed_seconds` wins regardless of the
accumulated measurement sum, but is stored clamped at zero
(`max(0, elapsed_seconds)`, so a negative override stores 0, not the
supplied value); otherwise the accumulated duration is kept; the
`now - start` fallback applies only when the accumulated duration is zero.
Final energy is the resolved duration in hours times the captured rate. -/
theorem finish_duration_precedence (st : RepoState) (sid : Nat) (s : Session)
    (dist? : Option Rat) (elapsed? : Option Int) (now : Int)
    (hFind : st.sessions.find? (fun t => t.id == sid) = some s) :
    ∃ st' r, finishSession st sid dist? elapsed? now = .ok (st', r) ∧
      st'.sessions.find? (fun t => t.id == sid) = some r ∧
      (∀ e, elapsed? = some e → r.totalDurationSeconds = max 0 e) ∧
      (elapsed? = none → s.totalDurationSeconds ≠ 0 →
        r.totalDurationSeconds = s.totalDurationSeconds) ∧
      (elapsed? = none → s.totalDurationSeconds = 0 →
        r.totalDurationSeconds = max 0 (now - s.startedAt)) ∧
      r.totalCalories = ((r.totalDurationSeconds : Rat) / 3600) * s.caloriesPerHour := by
  obtain ⟨st', r, hrun, hfind, hdur, hcal, -, -⟩ :=
    finishSession_ok st sid s dist? elapsed? now hFind
  refine ⟨st', r, hrun, hfind, ?_, ?_, ?_, hcal⟩
  · intro e he; rw [he] at hdur; exact hdur
  · intro he hne; rw [he] at hdur; simpa [hne] using hdur
  · intro he hz; rw [he] at hdur; simpa [hz] using hdur

/-- An active session of user 7 holding one accumulated 100-second
measurement (2 km), used by the claim-C3 counterexample and witness. -/
def sessAcc : Session := ⟨0, 7, 0, none, 2, 100, 100 / 3600 * 600, 600, none⟩

/-- A store containing exactly `sessAcc` and its one metric row. -/
def repoAcc : RepoState := ⟨[sessAcc], [⟨0, 2, 100, none, none⟩], 1⟩

/-- Claim C3 counterexample: with 100 s accumulated, stopping with a
caller-supplied elapsed_seconds of -50 stores a total duration of 0 — not
the supplied value, which the claim as stated requires. -/
theorem finish_override_not_identity :
    ((finishSession repoAcc 0 none (some (-50)) 200).toOption.map
      (fun p => p.2.totalDurationSeconds)) = some 0 ∧ (0 : Int) ≠ -50 :=
  ⟨rfl, by decide⟩

theorem finish_duration_precedence_witness :
    (repoAcc.sessions.find? (fun t => t.id == 0) = some sessAcc) ∧
    (∃ st' r, finishSession repoAcc 0 none (some 1800) 200 = .ok (st', r) ∧
      st'.sessions.find? (fun t => t.id == 0) = some r ∧
      (∀ e, (some 1800 : Option Int) = some e → r.totalDurationSeconds = max 0 e) ∧
      ((some 1800 : Option Int) = none → sessAcc.totalDurationSeconds ≠ 0 →
        r.totalDurationSeconds = sessAcc.totalDurationSeconds) ∧
      ((some 1800 : Option Int) = none → sessAcc.totalDurationSeconds = 0 →
        r.totalDurationSeconds = max 0 (200 - sessAcc.startedAt)) ∧
      r.totalCalories = ((r.totalDurationSeconds : Rat) / 3600) *
        sessAcc.caloriesPerHour) :=
  ⟨rfl, finish_duration_precedence repoAcc 0 sessAcc none (some 1800) 200 rfl⟩

/-- Claim C7 (amended): `finish_session` unconditionally sets the stored
end instant of the identified session to the current time; a previously-set
non-null end instant is overwritten with now, not kept.  (Through the
service layer, `stop_run` only ever finishes sessions with a NULL end
instant, because `get_active_session` selects only those.) -/
theorem finish_sets_end_to_now (st : RepoState) (sid : Nat) (s : Session)
    (dist? : Option Rat) (elapsed? : Option Int) (now : Int)
    (hFind : st.sessions.find? (fun t => t.id == sid) = some s) :
    ∃ st' r, finishSession st sid dist? elapsed? now = .ok (st', r) ∧
      st'.sessions.find? (fun t => t.id == sid) = some r ∧
      r.endedAt = some now := by
  obtain ⟨st', r, h1, h2, -, -, h3, -⟩ :=
    finishSession_ok st sid s dist? elapsed? now hFind
  exact ⟨st', r, h1, h2, h3⟩

/-- A session of user 7 that already ended at instant 100. -/
def sessEnded : Session := ⟨0, 7, 0, some 100, 0, 0, 0, 600, none⟩

/-- A store whose only session already has a non-null end instant. -/
def repoEnded : RepoState := ⟨[sessEnded], [], 1⟩

/-- Claim C7 counterexample: finishing a session whose end instant is
already set (100) at now = 200 stores end instant 200 — the previously-set
value is overwritten, not kept as the claim states. -/
theorem finish_does_not_keep_previous_end :
    ((finishSession repoEnded 0 none none 200).toOption.map
      (fun p => p.2.endedAt)) = some (some 200) ∧
    some (200 : Int) ≠ some (100 : Int) :=
  ⟨rfl, by decide⟩

theorem finish_sets_end_to_now_witness :
    (repoEnded.sessions.find? (fun t => t.id == 0) = some sessEnded) ∧
    (∃ st' r, finishSession repoEnded 0 none none 200 = .ok (st', r) ∧
      st'.sessions.find? (fun t => t.id == 0) = some r ∧
      r.endedAt = some 200) :=
  ⟨rfl, finish_sets_end_to_now repoEnded 0 sessEnded none none 200 rfl⟩

/-- Claim C10: whenever `finish_session` is called with a caller-supplied
elapsed_seconds — on any session, whatever its accumulated measurement
duration — the stored total duration is max(0, elapsed_seconds): a
negative override is silently clamped to 0, neither stored negative nor
rejected; and the (now - start) fallback, which applies exactly when no
override is given and the accumulated duration is zero, is likewise
clamped, so a duration stored by `finish_session` from an override or
from the fallback is never negative. -/
theorem finish_duration_never_negative (st : RepoState) (sid : Nat) (s : Session)
    (dist? : Option Rat) (now : Int) (e : Int)
    (hFind : st.sessions.find? (fun t => t.id == sid) = some s) :
    (∃ st' r, finishSession st sid dist? (some e) now = .ok (st', r) ∧
      r.totalDurationSeconds = max 0 e ∧ 0 ≤ r.totalDurationSeconds) ∧
    (s.totalDurationSeconds = 0 →
      ∃ st' r, finishSession st sid dist? none now = .ok (st', r) ∧
        r.totalDurationSeconds = max 0 (now - s.startedAt) ∧
        0 ≤ r.totalDurationSeconds) := by
  constructor
  · obtain ⟨st', r, h1, -, hdur, -, -, -⟩ :=
      finishSession_ok st sid s dist? (some e) now hFind
    exact ⟨st', r, h1, hdur, by rw [hdur]; exact le_max_left _ _⟩
  · intro hAcc
    obtain ⟨st', r, h1, -, hdur, -, -, -⟩ :=
      finishSession_ok st sid s dist? none now hFind
    have hdur2 : r.totalDurationSeconds = max 0 (now - s.startedAt) := by
      simpa [hAcc] using hdur
    exact ⟨st', r, h1, hdur2, by rw [hdur2]; exact le_max_left _ _⟩

theorem finish_duration_never_negative_witness :
    (repoAcc.sessions.find? (fun t => t.id == 0) = some sessAcc) ∧
    ((∃ st' r, finishSession repoAcc 0 none (some (-50)) 300 = .ok (st', r) ∧
       r.totalDurationSeconds = max 0 (-50) ∧ 0 ≤ r.totalDurationSeconds) ∧
     (sessAcc.totalDurationSeconds = 0 →
       ∃ st' r, finishSession repoAcc 0 none none 300 = .ok (st', r) ∧
         r.totalDurationSeconds = max 0 (300 - sessAcc.startedAt) ∧
         0 ≤ r.totalDurationSeconds)) ∧
    (repoW.sessions.find? (fun t => t.id == 0) = some sessW) ∧
    sessW.totalDurationSeconds = 0 ∧
    (∃ st' r, finishSession repoW 0 none none 300 = .ok (st', r) ∧
       r.totalDurationSeconds = max 0 (300 - sessW.startedAt) ∧
       0 ≤ r.totalDurationSeconds) :=
  ⟨rfl,
   finish_duration_never_negative repoAcc 0 sessAcc none 300 (-50) rfl,
   rfl, rfl,
   (finish_duration_never_negative repoW 0 sessW none 300 (-50) rfl).2 rfl⟩

/-- Sum of the incremental distances of a list of metric rows. -/
def sumDist (ms : List Metric) : Rat := (ms.map (·.distance)).sum

/-- Sum of the incremental durations of a list of metric rows. -/
def sumDur (ms : List Metric) : Int := (ms.map (·.durationSeconds)).sum

theorem recalc_find (st : RepoState) (sid : Nat) (s0 : Session)
    (h : st.sessions.find? (fun t => t.id == sid) = some s0) :
    (recalcSessionTotals st sid).sessions.find? (fun t => t.id == sid) =
      some { s0 with
        totalDistanceKm := sumDist (metricsFor st sid),
        totalDurationSeconds := sumDur (metricsFor st sid),
        totalCalories :=
          ((sumDur (metricsFor st sid) : Rat) / 3600) * s0.caloriesPerHour } := by
  have hid : (s0.id == sid) = true := by simpa using List.find?_some h
  unfold recalcSessionTotals
  rw [find?_map_of_pred]
  · rw [h, Option.map_some', if_pos hid]
    rfl
  · intro t
    by_cases ht : t.id == sid <;> simp [ht]

/-- Claim C4: after every `add_metric` call on an active session the
session's stored total distance and total duration equal the sums over all
of that session's measurement rows (a full recomputation, not an
incremental add), and the stored total energy equals
(total duration seconds / 3600) × the captured rate held on the session
row since start.  The 300 s + 600 s ⇒ 900 s example is in the witness. -/
theorem addMetric_recomputes_totals (st : RepoState) (uid : Nat) (a : Session)
    (dist : Rat) (dur : Int) (t1 t2 : Option Int)
    (hActive : getActiveSession st uid = some a) :
    ∃ st' m s, serviceAddMetric st uid dist dur t1 t2 = .ok (st', m) ∧
      st'.metrics = st.metrics ++ [m] ∧
      st'.sessions.find? (fun t => t.id == a.id) = some s ∧
      s.totalDistanceKm = sumDist (metricsFor st' a.id) ∧
      s.totalDurationSeconds = sumDur (metricsFor st' a.id) ∧
      s.totalCalories =
        ((s.totalDurationSeconds : Rat) / 3600) * s.caloriesPerHour := by
  have hmem : a ∈ st.sessions := List.mem_of_find?_eq_some hActive
  have hsome : (st.sessions.find? (fun t => t.id == a.id)).isSome := by
    rw [List.find?_isSome]
    exact ⟨a, hmem, by simp⟩
  obtain ⟨s0, hs0⟩ := Option.isSome_iff_exists.mp hsome
  have hfind1 :
      ({ st with metrics := st.metrics ++ [⟨a.id, dist, dur, t1, t2⟩] } :
        RepoState).sessions.find? (fun t => t.id == a.id) = some s0 := hs0
  have hkey := recalc_find _ a.id s0 hfind1
  unfold serviceAddMetric
  rw [hActive]
  unfold repoAddMetric
  exact ⟨_, _, _, rfl, rfl, hkey, rfl, rfl, rfl⟩

theorem addMetric_recomputes_totals_witness :
    (getActiveSession repoW 7 = some sessW) ∧
    (∃ st' m s, serviceAddMetric repoW 7 5 300 none none = .ok (st', m) ∧
      st'.metrics = repoW.metrics ++ [m] ∧
      st'.sessions.find? (fun t => t.id == sessW.id) = some s ∧
      s.totalDistanceKm = sumDist (metricsFor st' sessW.id) ∧
      s.totalDurationSeconds = sumDur (metricsFor st' sessW.id) ∧
      s.totalCalories =
        ((s.totalDurationSeconds : Rat) / 3600) * s.caloriesPerHour) ∧
    ((runOps [.startRun 7 none 600 0, .addMetric 7 5 300 none none,
       .addMetric 7 3 600 none none, .stopRun 7 none none 2000]).sessions.map
         (·.totalDurationSeconds)) = [900] :=
  ⟨rfl, addMetric_recomputes_totals repoW 7 sessW 5 300 none none rfl, rfl⟩

/-- Claim C8 (amended): `add_metric` performs no positivity validation:
for every distance and duration — including non-positive values — with an
active session present the call succeeds, the measurement row is appended
unchanged, and the totals recomputation then includes it; no validation
error is raised and nothing is rejected before mutation. -/
theorem addMetric_no_validation (st : RepoState) (uid : Nat) (a : Session)
    (dist : Rat) (dur : Int) (t1 t2 : Option Int)
    (hActive : getActiveSession st uid = some a) :
    ∃ st', serviceAddMetric st uid dist dur t1 t2 =
      .ok (st', ⟨a.id, dist, dur, t1, t2⟩) ∧
      st'.metrics = st.metrics ++ [⟨a.id, dist, dur, t1, t2⟩] := by
  unfold serviceAddMetric
  rw [hActive]
  exact ⟨_, rfl, rfl⟩

/-- Claim C8 counterexample: with an active session whose totals are zero,
a measurement with negative distance and duration is accepted: the call
succeeds (no validation error), a row is appended, and the stored total
duration becomes -100 — where the claim requires a rejection with no store
mutation. -/
theorem addMetric_accepts_nonpositive :
    ((serviceAddMetric repoW 7 (-1) (-100) none none).toOption.map
      (fun p => (p.1.metrics.length, p.1.sessions.map (·.totalDurationSeconds))))
      = some (1, [-100]) ∧
    (1 : Nat) ≠ 0 ∧ (-100 : Int) ≠ (0 : Int) :=
  ⟨rfl, by decide, by decide⟩

theorem addMetric_no_validation_witness :
    (getActiveSession repoW 7 = some sessW) ∧
    (∃ st', serviceAddMetric repoW 7 (-1) (-100) none none =
      .ok (st', ⟨sessW.id, -1, -100, none, none⟩) ∧
      st'.metrics = repoW.metrics ++ [⟨sessW.id, -1, -100, none, none⟩]) :=
  ⟨rfl, addMetric_no_validation repoW 7 sessW (-1) (-100) none none rfl⟩

/-! ## Weekly planner (services.py: `_build_weekly_plan_stub`,
`build_test_weekly_ai_plan`) -/

/-- An `HH:MM` time string, represented by the two integers that
`map(int, hhmm.split(":"))` yields; the string determines and is
determined by this pair for the rendered outputs (`[0,24) × [0,60)`). -/
structure HHMM where
  h : Nat
  m : Nat
  deriving Repr, DecidableEq

/-- `_hhmm_to_minutes` / `_local_hhmm_to_minutes`: `h * 60 + m`. -/
def hhmmToMinutes (t : HHMM) : Int := t.h * 60 + t.m

/-- `_minutes_to_hhmm` / `_local_minutes_to_hhmm`: reduce modulo one day
(Python `%` on a positive modulus is the Euclidean `%` used here), then
split into the hour/minute pair rendered as the `HH:MM` string. -/
def minutesToHHMM (total : Int) : HHMM :=
  let t : Int := total % 1440
  ⟨(t / 60).toNat, (t % 60).toNat⟩

/-- One weekly availability slot of the stub input: a weekday integer and
the start/end `HH:MM` strings. -/
structure Slot where
  weekday : Int
  startTime : HHMM
  endTime : HHMM
  deriving Repr, DecidableEq

/-- One generated activity (the dicts the stub appends); `startTime` is
the value rendered into the `start_time` string. -/
structure Activity where
  startTime : HHMM
  durationMinutes : Int
  distanceKm : Rat
  activity : String
  description : Option String
  deriving Repr, DecidableEq

def warmupDesc : String :=
  "Easy jog or brisk walk with dynamic mobility drills to activate joints and muscles before the main session."

def mainDesc : String :=
  "Run at a comfortable, conversational pace. You should feel like you could keep going a bit longer at the end."

def cooldownDesc : String :=
  "Gradually slow down to an easy walk, then do static stretches for calves, quads, hamstrings and hips to support recovery."

/-- Round half to even, the rounding mode of Python `round`. -/
def roundHalfEven (q : Rat) : Int :=
  let f : Int := ⌊q⌋
  let frac : Rat := q - (f : Rat)
  if frac < 1 / 2 then f
  else if 1 / 2 < frac then f + 1
  else if f % 2 = 0 then f else f + 1

/-- Python `round(x, 2)`. -/
def round2 (q : Rat) : Rat := (roundHalfEven (q * 100) : Rat) / 100

/-- Python `str.lower()` on the ASCII strings the tier names use. -/
def asciiLower (s : String) : String :=
  ⟨s.data.map (fun c =>
    if c ≥ 'A' ∧ c ≤ 'Z' then Char.ofNat (c.toNat + 32) else c)⟩

/-- The per-tier speed constant of `_build_weekly_plan_stub`:
`(user_params.get("fitness_level") or "beginner").lower()`, then
athlete = 11.0, regular = 9.0, anything else 7.0.  (`or` also replaces an
empty string, which is falsy in Python.) -/
def kmPerHourFor (fitnessLevel : Option String) : Rat :=
  let raw : String :=
    match fitnessLevel with
    | none => "beginner"
    | some s => if s = "" then "beginner" else s
  let level := asciiLower raw
  if level = "athlete" then 11
  else if level = "regular" then 9
  else 7

/-- The per-window body of the stub loop: split one availability block
into warm-up, main run and cooldown (durations `base`, `base + rest`,
`base`), skipping blocks of non-positive length.  Python `//` on the
positive lengths involved is the Euclidean `/` used here. -/
def planBlock (kmPerHour : Rat) (b : Slot) : List Activity :=
  let startMin := hhmmToMinutes b.startTime
  let endMin := hhmmToMinutes b.endTime
  let total := endMin - startMin
  if total ≤ 0 then []
  else
    let base := total / 3
    let rest := total - base * 3
    let warmupDur := base
    let runDur := base + rest
    let stretchDur := base
    let warmupStart := startMin
    let runStart := warmupStart + warmupDur
    let stretchStart := runStart + runDur
    let runDistance := round2 ((runDur : Rat) * (kmPerHour / 60))
    [⟨minutesToHHMM warmupStart, warmupDur, 0, "Warm-up & mobility",
        some warmupDesc⟩,
     ⟨minutesToHHMM runStart, runDur, runDistance, "Main run",
        some mainDesc⟩,
     ⟨minutesToHHMM stretchStart, stretchDur, 0, "Cooldown & stretching",
        some cooldownDesc⟩]

/-- One weekday iteration of the stub: the blocks of that weekday in input
order, each expanded by `planBlock`. -/
def stubDayActivities (kmPerHour : Rat) (slots : List Slot) (weekday : Nat) :
    List Activity :=
  ((slots.filter (fun b => b.weekday == (weekday : Int))).map
    (planBlock kmPerHour)).flatten

/-- The `user_params` dict assembled by `build_test_weekly_ai_plan`. -/
structure UserParams where
  heightCm : Option Rat
  weightKg : Option Rat
  age : Option Int
  goalType : Option String
  targetDistanceM : Option Int
  targetWeightKg : Option Rat
  fitnessLevel : Option String
  deriving Repr, DecidableEq

/-- One day of a weekly template. -/
structure DayPlan where
  weekday : Nat
  activities : List Activity
  deriving Repr, DecidableEq

/-- The result dict `{user_params, weekly_template}`. -/
structure PlanResult where
  userParams : UserParams
  weeklyTemplate : List DayPlan
  deriving Repr, DecidableEq

/-- `_build_weekly_plan_stub`: one entry per weekday 0..6, echoing the
user parameters. -/
def buildWeeklyPlanStub (p : UserParams) (slots : List Slot) : PlanResult :=
  ⟨p, (List.range 7).map (fun wd =>
    ⟨wd, stubDayActivities (kmPerHourFor p.fitnessLevel) slots wd⟩)⟩

/-- `build_test_weekly_ai_plan` after the payload is split into
`user_params` and `weekly_slots`.  The `chatgpt` argument is the outcome
of `_build_weekly_plan_via_chatgpt` — either its normalized return value
or any exception that external path raises (connection or API failure,
JSON-extraction failure, schema violation); the bare `except Exception`
of the source catches every such exception and falls back to the stub. -/
def buildTestWeeklyAiPlan (userExists : Bool)
    (chatgpt : Except String PlanResult) (p : UserParams) (slots : List Slot) :
    Except Err PlanResult :=
  if userExists then
    match chatgpt with
    | .ok plan => .ok plan
    | .error _ => .ok (buildWeeklyPlanStub p slots)
  else
    .error .userNotFound

theorem hhmm_roundtrip (x : Int) (h0 : 0 ≤ x) (h1 : x < 1440) :
    hhmmToMinutes (minutesToHHMM x) = x := by
  simp only [hhmmToMinutes, minutesToHHMM]
  omega

theorem hhmmToMinutes_nonneg (t : HHMM) : 0 ≤ hhmmToMinutes t := by
  unfold hhmmToMinutes
  positivity

/-- Claim C2 (amended): for every availability window of positive length L
minutes (within one civil day) and every fitness tier, the deterministic
fallback planner emits exactly three contiguous activities in
chronological order — warm-up of B = L div 3 minutes, main of
B + (L mod 3) minutes, cooldown of B minutes — whose durations sum exactly
to L; the tier paces are beginner 7.0, regular 9.0, athlete 11.0; the main
distance is round(main_minutes × (pace / 60), 2) — the exact product
rounded to two decimals, as the source stores it — and warm-up and
cooldown carry distance 0. -/
theorem stub_window_split (fl : Option String) (b : Slot) (L : Int)
    (hL : L = hhmmToMinutes b.endTime - hhmmToMinutes b.startTime)
    (hpos : 0 < L) (hday : hhmmToMinutes b.endTime < 1440) :
    ∃ w m c, planBlock (kmPerHourFor fl) b = [w, m, c] ∧
      w.durationMinutes = L / 3 ∧
      m.durationMinutes = L / 3 + L % 3 ∧
      c.durationMinutes = L / 3 ∧
      w.durationMinutes + m.durationMinutes + c.durationMinutes = L ∧
      hhmmToMinutes w.startTime = hhmmToMinutes b.startTime ∧
      hhmmToMinutes m.startTime = hhmmToMinutes w.startTime + w.durationMinutes ∧
      hhmmToMinutes c.startTime = hhmmToMinutes m.startTime + m.durationMinutes ∧
      hhmmToMinutes c.startTime + c.durationMinutes = hhmmToMinutes b.endTime ∧
      w.activity = "Warm-up & mobility" ∧
      m.activity = "Main run" ∧
      c.activity = "Cooldown & stretching" ∧
      w.distanceKm = 0 ∧ c.distanceKm = 0 ∧
      m.distanceKm = round2 ((m.durationMinutes : Rat) * (kmPerHourFor fl / 60)) ∧
      kmPerHourFor (some "beginner") = 7 ∧
      kmPerHourFor (some "regular") = 9 ∧
      kmPerHourFor (some "athlete") = 11 := by
  have hs0 : 0 ≤ hhmmToMinutes b.startTime := hhmmToMinutes_nonneg b.startTime
  subst hL
  unfold planBlock
  rw [if_neg (not_le.mpr hpos)]
  refine ⟨_, _, _, rfl, rfl, ?_, rfl, ?_, ?_, ?_, ?_, ?_, rfl, rfl, rfl,
    rfl, rfl, rfl, ?_, ?_, ?_⟩
  · dsimp only
    omega
  · dsimp only
    omega
  · dsimp only
    rw [hhmm_roundtrip _ (by omega) (by omega)]
  · dsimp only
    rw [hhmm_roundtrip _ (by omega) (by omega),
        hhmm_roundtrip _ (by omega) (by omega)]
  · dsimp only
    rw [hhmm_roundtrip _ (by omega) (by omega),
        hhmm_roundtrip _ (by omega) (by omega)]
  · dsimp only
    rw [hhmm_roundtrip _ (by omega) (by omega)]
    omega
  · decide
  · decide
  · decide

/-- The 30-minute beginner window of the claim-C2 counterexample. -/
def slotHalfHour : Slot := ⟨0, ⟨7, 0⟩, ⟨7, 30⟩⟩

/-- Claim C2 counterexample: for the 07:00–07:30 window at beginner tier
the main block lasts 10 minutes and the stub stores
round(10 × (7.0/60), 2) = 1.17 as its distance, which is not the exact
product 10 × (7/60) = 7/6 that the claim states. -/
theorem stub_distance_is_rounded :
    ((planBlock (kmPerHourFor (some "beginner")) slotHalfHour).map
      (·.distanceKm)) = [0, 117 / 100, 0] ∧
    (117 / 100 : Rat) ≠ (10 : Rat) * (7 / 60) := by
  constructor
  · have hk : kmPerHourFor (some "beginner") = 7 := by decide
    rw [hk]
    norm_num [planBlock, slotHalfHour, hhmmToMinutes, minutesToHHMM,
      round2, roundHalfEven]
  · norm_num

/-- The 40-minute regular-tier window of the claim example. -/
def slotW : Slot := ⟨0, ⟨7, 0⟩, ⟨7, 40⟩⟩

theorem stub_window_split_witness :
    ((40 : Int) = hhmmToMinutes slotW.endTime - hhmmToMinutes slotW.startTime ∧
     (0 : Int) < 40 ∧ hhmmToMinutes slotW.endTime < 1440) ∧
    (∃ w m c, planBlock (kmPerHourFor (some "regular")) slotW = [w, m, c] ∧
      w.durationMinutes = (40 : Int) / 3 ∧
      m.durationMinutes = (40 : Int) / 3 + (40 : Int) % 3 ∧
      c.durationMinutes = (40 : Int) / 3 ∧
      w.durationMinutes + m.durationMinutes + c.durationMinutes = 40 ∧
      hhmmToMinutes w.startTime = hhmmToMinutes slotW.startTime ∧
      hhmmToMinutes m.startTime = hhmmToMinutes w.startTime + w.durationMinutes ∧
      hhmmToMinutes c.startTime = hhmmToMinutes m.startTime + m.durationMinutes ∧
      hhmmToMinutes c.startTime + c.durationMinutes = hhmmToMinutes slotW.endTime ∧
      w.activity = "Warm-up & mobility" ∧
      m.activity = "Main run" ∧
      c.activity = "Cooldown & stretching" ∧
      w.distanceKm = 0 ∧ c.distanceKm = 0 ∧
      m.distanceKm = round2 ((m.durationMinutes : Rat) *
        (kmPerHourFor (some "regular") / 60)) ∧
      kmPerHourFor (some "beginner") = 7 ∧
      kmPerHourFor (some "regular") = 9 ∧
      kmPerHourFor (some "athlete") = 11) ∧
    ((planBlock (kmPerHourFor (some "regular")) slotW).map (·.durationMinutes)
       = [13, 14, 13] ∧
     (planBlock (kmPerHourFor (some "regular")) slotW).map (·.distanceKm)
       = [0, 21 / 10, 0]) :=
  ⟨⟨by decide, by decide, by decide⟩,
   stub_window_split (some "regular") slotW 40 (by decide) (by decide) (by decide),
   by decide,
   by
     have hk : kmPerHourFor (some "regular") = 9 := by decide
     rw [hk]
     norm_num [planBlock, slotW, hhmmToMinutes, minutesToHHMM,
       round2, roundHalfEven]⟩

/-- Claim C6: an exception raised by the external generation path (the
ChatGPT build, including JSON-extraction and schema failures) is never
propagated by `build_test_weekly_ai_plan`: when the user exists the call
never returns an error for any external outcome, on an external failure it
returns the deterministic fallback planner result for the same input, and
the only error the function raises at all is its own user-not-found
check. -/
theorem build_plan_absorbs_upstream_failure (chatgpt : Except String PlanResult)
    (p : UserParams) (slots : List Slot) :
    (∀ msg, chatgpt = .error msg →
      buildTestWeeklyAiPlan true chatgpt p slots =
        .ok (buildWeeklyPlanStub p slots)) ∧
    (∀ res, buildTestWeeklyAiPlan true chatgpt p slots ≠ .error res) ∧
    buildTestWeeklyAiPlan false chatgpt p slots = .error .userNotFound := by
  refine ⟨?_, ?_, rfl⟩
  · intro msg h
    subst h
    rfl
  · intro res
    cases chatgpt <;> simp [buildTestWeeklyAiPlan]

/-- A concrete profile for the claim-C6 witness. -/
def paramsW : UserParams :=
  ⟨some 180, some 75, some 30, none, none, none, some "regular"⟩

theorem build_plan_absorbs_upstream_failure_witness :
    buildTestWeeklyAiPlan true (.error "boom") paramsW [slotW] =
      .ok (buildWeeklyPlanStub paramsW [slotW]) ∧
    (∀ res, buildTestWeeklyAiPlan true (.error "boom") paramsW [slotW]
      ≠ .error res) ∧
    buildTestWeeklyAiPlan false (.error "boom") paramsW [slotW] =
      .error .userNotFound :=
  ⟨(build_plan_absorbs_upstream_failure (.error "boom") paramsW [slotW]).1
      "boom" rfl,
   (build_plan_absorbs_upstream_failure (.error "boom") paramsW [slotW]).2.1,
   (build_plan_absorbs_upstream_failure (.error "boom") paramsW [slotW]).2.2⟩

/-! ## Calendar application (services.py: `apply_test_weekly_ai_plan`) -/

/-- A row of the `daily_running_plan` table.  `planDate` is the civil date
as a day count with day 0 a Monday, so `planDate % 7` is Python
`date.weekday()` (Monday = 0); `startTimeLocal` stands for the stored
`HH:MM` string. -/
structure PlanEntry where
  id : Nat
  userId : Nat
  planDate : Nat
  startTimeLocal : HHMM
  durationMinutes : Int
  distanceKm : Rat
  activity : Option String
  description : Option String
  deriving Repr, DecidableEq

/-- The calendar part of the store. -/
structure CalState where
  plans : List PlanEntry
  nextId : Nat
  deriving Repr, DecidableEq

/-- `Repo.list_daily_plans_for_date` (`WHERE user_id=? AND plan_date=?`).
Rows are kept in storage order; the ORDER BY of the source affects only
presentation — the apply loop deletes every returned row regardless of
order. -/
def listDailyPlansForDate (st : CalState) (uid d : Nat) : List PlanEntry :=
  st.plans.filter (fun e => e.userId == uid && e.planDate == d)

/-- `Repo.create_daily_plan`: insert one calendar row with a fresh id. -/
def createDailyPlan (st : CalState) (uid d : Nat) (t : HHMM) (dur : Int)
    (dist : Rat) (act : Option String) (descr : Option String) :
    CalState × PlanEntry :=
  let e : PlanEntry := ⟨st.nextId, uid, d, t, dur, dist, act, descr⟩
  ({ plans := st.plans ++ [e], nextId := st.nextId + 1 }, e)

/-- `Repo.delete_daily_plan` (`DELETE ... WHERE id=? AND user_id=?`). -/
def deleteDailyPlan (st : CalState) (uid pid : Nat) : CalState :=
  { st with plans := st.plans.filter (fun e => !(e.id == pid && e.userId == uid)) }

/-- One entry of the `weekly_template` payload list. -/
structure DayTemplate where
  weekday : Int
  activities : List Activity
  deriving Repr, DecidableEq

/-- The `template_by_weekday` dict: walking the payload in order, an entry
with weekday in 0..6 overwrites any earlier entry for the same weekday;
other weekdays are dropped; a weekday never written defaults to `[]`
(`template_by_weekday.get(weekday, [])`; `day.get("activities", []) or []`
always yields a list, which the typed `activities` field models). -/
def templateByWeekday (tmpl : List DayTemplate) : Int → List Activity :=
  tmpl.foldl
    (fun m day =>
      if 0 ≤ day.weekday ∧ day.weekday ≤ 6 then
        fun wd => if wd = day.weekday then day.activities else m wd
      else m)
    (fun _ => [])

/-- Python `date.weekday()` for the day-count date representation. -/
def weekdayOf (d : Nat) : Nat := d % 7

/-- The dates `[start, start + days)` walked by the apply loop. -/
def dateRange (start days : Nat) : List Nat :=
  (List.range days).map (start + ·)

/-- The body of the per-date loop of `apply_test_weekly_ai_plan`: list the
existing rows of the user and date, record the date as cleared when any
exist, delete them all, then insert one row per activity of the weekday
template, in template order. -/
def applyPlanDay (uid : Nat) (acts : List Activity) (d : Nat)
    (st : CalState) : CalState × Bool × List PlanEntry :=
  let existing := listDailyPlansForDate st uid d
  let cleared := !existing.isEmpty
  let st1 := existing.foldl (fun s p => deleteDailyPlan s uid p.id) st
  let r := acts.foldl
    (fun (acc : CalState × List PlanEntry) a =>
      ((createDailyPlan acc.1 uid d a.startTime a.durationMinutes
          a.distanceKm (some a.activity) a.description).1,
       acc.2 ++ [(createDailyPlan acc.1 uid d a.startTime a.durationMinutes
          a.distanceKm (some a.activity) a.description).2]))
    (st1, [])
  (r.1, cleared, r.2)

/-- The whole date loop: final store, cleared dates in order, created rows
in order. -/
def applyDates (uid : Nat) (tmplF : Int → List Activity) :
    List Nat → CalState → CalState × List Nat × List PlanEntry
  | [], st => (st, [], [])
  | d :: ds, st =>
    let r1 := applyPlanDay uid (tmplF (weekdayOf d : Int)) d st
    let r2 := applyDates uid tmplF ds r1.1
    (r2.1, (if r1.2.1 then [d] else []) ++ r2.2.1, r1.2.2 ++ r2.2.2)

/-- `apply_test_weekly_ai_plan` after its gating steps resolve (user
check, `weekly_template` type check, `days` defaulting with the
positive-days check, `start_date` defaulting to tomorrow): walk the
resolved date range, overwriting each date from the weekday template. -/
def applyTestWeeklyAiPlan (uid : Nat) (tmpl : List DayTemplate)
    (startDate days : Nat) (st : CalState) :
    CalState × List Nat × List PlanEntry :=
  applyDates uid (templateByWeekday tmpl) (dateRange startDate days) st

/-- The content of a calendar row apart from its generated id. -/
structure PlanEntryData where
  userId : Nat
  planDate : Nat
  startTimeLocal : HHMM
  durationMinutes : Int
  distanceKm : Rat
  activity : Option String
  description : Option String
  deriving Repr, DecidableEq

def PlanEntry.data (e : PlanEntry) : PlanEntryData :=
  ⟨e.userId, e.planDate, e.startTimeLocal, e.durationMinutes, e.distanceKm,
   e.activity, e.description⟩

/-- The rows a template day renders into on a date, up to ids. -/
def renderData (uid d : Nat) (acts : List Activity) : List PlanEntryData :=
  acts.map (fun a => ⟨uid, d, a.startTime, a.durationMinutes, a.distanceKm,
    some a.activity, a.description⟩)

/-- The rows the insertion fold of one date appends, ids included. -/
def renderActs (uid d : Nat) : Nat → List Activity → List PlanEntry
  | _, [] => []
  | n, a :: as =>
    ⟨n, uid, d, a.startTime, a.durationMinutes, a.distanceKm,
      some a.activity, a.description⟩ :: renderActs uid d (n + 1) as

/-- Well-formed store: pairwise-distinct row ids (what uuid generation
guarantees), all below the fresh counter. -/
def CalWF (st : CalState) : Prop :=
  (st.plans.map (·.id)).Nodup ∧ ∀ e ∈ st.plans, e.id < st.nextId

theorem renderActs_data (uid d n : Nat) (acts : List Activity) :
    (renderActs uid d n acts).map PlanEntry.data = renderData uid d acts := by
  induction acts generalizing n with
  | nil => rfl
  | cons a as ih =>
    simp only [renderActs, List.map_cons, ih (n + 1)]
    rfl

theorem renderActs_ids (uid d n : Nat) (acts : List Activity) :
    (renderActs uid d n acts).map (·.id) = List.range' n acts.length := by
  induction acts generalizing n with
  | nil => rfl
  | cons a as ih => simp [renderActs, List.range', ih]

theorem renderActs_mem (uid d n : Nat) (acts : List Activity)
    (e : PlanEntry) (he : e ∈ renderActs uid d n acts) :
    e.userId = uid ∧ e.planDate = d ∧ n ≤ e.id ∧ e.id < n + acts.length := by
  induction acts generalizing n with
  | nil => simp [renderActs] at he
  | cons a as ih =>
    simp only [renderActs, List.mem_cons] at he
    rcases he with he | he
    · subst he
      refine ⟨rfl, rfl, le_refl n, ?_⟩
      simp only [List.length_cons]
      omega
    · obtain ⟨h1, h2, h3, h4⟩ := ih (n + 1) he
      refine ⟨h1, h2, by omega, ?_⟩
      simp only [List.length_cons]
      omega

theorem foldl_delete_plans (uid : Nat) (ps : List PlanEntry) (st : CalState) :
    (ps.foldl (fun s p => deleteDailyPlan s uid p.id) st).plans
      = st.plans.filter
          (fun e => !(ps.any (fun p => e.id == p.id) && e.userId == uid)) ∧
    (ps.foldl (fun s p => deleteDailyPlan s uid p.id) st).nextId = st.nextId := by
  induction ps generalizing st with
  | nil => simp
  | cons p ps ih =>
    simp only [List.foldl_cons]
    obtain ⟨h1, h2⟩ := ih (deleteDailyPlan st uid p.id)
    refine ⟨?_, by rw [h2]; rfl⟩
    rw [h1]
    unfold deleteDailyPlan
    rw [List.filter_filter]
    refine List.filter_congr fun e _ => ?_
    cases he : e.id == p.id <;> cases hu : e.userId == uid <;>
      simp [he, hu]

theorem delete_existing (uid d : Nat) (st : CalState) (hWF : CalWF st) :
    ((listDailyPlansForDate st uid d).foldl
        (fun s p => deleteDailyPlan s uid p.id) st).plans
      = st.plans.filter (fun e => !(e.userId == uid && e.planDate == d)) := by
  rw [(foldl_delete_plans uid _ st).1]
  refine List.filter_congr fun e he => ?_
  by_cases hmatch : e.userId = uid ∧ e.planDate = d
  · have hany : (listDailyPlansForDate st uid d).any
        (fun p => e.id == p.id) = true := by
      refine List.any_eq_true.mpr ⟨e, ?_, by simp⟩
      unfold listDailyPlansForDate
      rw [List.mem_filter]
      exact ⟨he, by simp [hmatch.1, hmatch.2]⟩
    simp [hany, hmatch.1, hmatch.2]
  · have hany : (listDailyPlansForDate st uid d).any
        (fun p => e.id == p.id) = false := by
      rw [List.any_eq_false]
      intro p hp
      have hpmem : p ∈ st.plans := (List.mem_filter.mp hp).1
      have hppred := (List.mem_filter.mp hp).2
      intro hid
      have hpe : e = p :=
        List.inj_on_of_nodup_map hWF.1 he hpmem (by simpa using hid)
      rw [← hpe] at hppred
      simp only [Bool.and_eq_true, beq_iff_eq] at hppred
      exact hmatch hppred
    have hnot : (e.userId == uid && e.planDate == d) = false := by
      rcases not_and_or.mp hmatch with h | h <;> simp [h]
    simp [hany, hnot]

theorem foldl_create_plans (uid d : Nat) (acts : List Activity)
    (st : CalState) (acc : List PlanEntry) :
    (acts.foldl
      (fun (p : CalState × List PlanEntry) a =>
        ((createDailyPlan p.1 uid d a.startTime a.durationMinutes
            a.distanceKm (some a.activity) a.description).1,
         p.2 ++ [(createDailyPlan p.1 uid d a.startTime a.durationMinutes
            a.distanceKm (some a.activity) a.description).2]))
      (st, acc))
      = ({ plans := st.plans ++ renderActs uid d st.nextId acts,
           nextId := st.nextId + acts.length },
         acc ++ renderActs uid d st.nextId acts) := by
  induction acts generalizing st acc with
  | nil => simp [renderActs]
  | cons a as ih =>
    simp only [List.foldl_cons]
    rw [ih]
    unfold createDailyPlan
    simp only [renderActs]
    refine Prod.ext ?_ ?_
    · show CalState.mk _ _ = CalState.mk _ _
      congr 1
      · simp
      · simp only [List.length_cons]
        omega
    · simp

theorem applyPlanDay_spec (uid : Nat) (acts : List Activity) (d : Nat)
    (st : CalState) (hWF : CalWF st) :
    applyPlanDay uid acts d st =
      (⟨st.plans.filter (fun e => !(e.userId == uid && e.planDate == d))
          ++ renderActs uid d st.nextId acts,
        st.nextId + acts.length⟩,
       !(listDailyPlansForDate st uid d).isEmpty,
       renderActs uid d st.nextId acts) := by
  unfold applyPlanDay
  dsimp only
  have hdel := delete_existing uid d st hWF
  have hdelN := (foldl_delete_plans uid (listDailyPlansForDate st uid d) st).2
  have hst1eq : (List.foldl (fun s p => deleteDailyPlan s uid p.id) st
      (listDailyPlansForDate st uid d))
      = (⟨st.plans.filter (fun e => !(e.userId == uid && e.planDate == d)),
          st.nextId⟩ : CalState) := by
    have h : (List.foldl (fun s p => deleteDailyPlan s uid p.id) st
        (listDailyPlansForDate st uid d))
        = ⟨(List.foldl (fun s p => deleteDailyPlan s uid p.id) st
              (listDailyPlansForDate st uid d)).plans,
           (List.foldl (fun s p => deleteDailyPlan s uid p.id) st
              (listDailyPlansForDate st uid d)).nextId⟩ := rfl
    rw [h, hdel, hdelN]
  rw [hst1eq, foldl_create_plans]
  simp

theorem applyPlanDay_WF (uid : Nat) (acts : List Activity) (d : Nat)
    (st : CalState) (hWF : CalWF st) :
    CalWF (applyPlanDay uid acts d st).1 := by
  rw [applyPlanDay_spec uid acts d st hWF]
  unfold CalWF
  dsimp only
  constructor
  · simp only [List.map_append, renderActs_ids]
    rw [List.nodup_append]
    refine ⟨?_, List.nodup_range' .., ?_⟩
    · exact hWF.1.sublist ((List.filter_sublist st.plans).map (·.id))
    · intro x hx hx2
      rw [List.mem_range'] at hx2
      simp only [List.mem_map] at hx
      obtain ⟨e, he, hee⟩ := hx
      have := hWF.2 e ((List.filter_sublist st.plans).mem he)
      omega
  · intro e he
    simp only [List.mem_append] at he
    rcases he with he | he
    · have := hWF.2 e ((List.filter_sublist st.plans).mem he)
      omega
    · have := (renderActs_mem uid d st.nextId acts e he).2.2.2
      omega

theorem applyPlanDay_query_self (uid : Nat) (acts : List Activity) (d : Nat)
    (st : CalState) (hWF : CalWF st) :
    listDailyPlansForDate (applyPlanDay uid acts d st).1 uid d
      = renderActs uid d st.nextId acts := by
  rw [applyPlanDay_spec uid acts d st hWF]
  dsimp only
  unfold listDailyPlansForDate
  rw [List.filter_append, List.filter_filter]
  have h1 : (st.plans.filter (fun e =>
      (e.userId == uid && e.planDate == d) &&
      !(e.userId == uid && e.planDate == d))) = [] := by
    rw [List.filter_eq_nil_iff]
    intro e _
    cases e.userId == uid && e.planDate == d <;> simp
  rw [h1]
  have h2 : ((renderActs uid d st.nextId acts).filter (fun e =>
      e.userId == uid && e.planDate == d)) = renderActs uid d st.nextId acts := by
    rw [List.filter_eq_self]
    intro e he
    obtain ⟨h3, h4, -, -⟩ := renderActs_mem uid d st.nextId acts e he
    simp [h3, h4]
  rw [h2]
  rfl

theorem applyPlanDay_query_other (uid : Nat) (acts : List Activity) (d : Nat)
    (st : CalState) (hWF : CalWF st) (uid2 d2 : Nat)
    (h : ¬(uid2 = uid ∧ d2 = d)) :
    listDailyPlansForDate (applyPlanDay uid acts d st).1 uid2 d2
      = listDailyPlansForDate st uid2 d2 := by
  rw [applyPlanDay_spec uid acts d st hWF]
  dsimp only
  unfold listDailyPlansForDate
  rw [List.filter_append, List.filter_filter]
  have h1 : (st.plans.filter (fun e =>
      (e.userId == uid2 && e.planDate == d2) &&
      !(e.userId == uid && e.planDate == d)))
      = st.plans.filter (fun e => e.userId == uid2 && e.planDate == d2) := by
    refine List.filter_congr fun e _ => ?_
    by_cases h2 : e.userId = uid2 ∧ e.planDate = d2
    · have h3 : (e.userId == uid && e.planDate == d) = false := by
        rcases Decidable.not_and_iff_or_not.mp h with h4 | h4
        · have : e.userId ≠ uid := by
            rw [h2.1]; exact h4
          simp [this]
        · have : e.planDate ≠ d := by
            rw [h2.2]; exact h4
          simp [this]
      rw [h3]
      simp
    · have h3 : (e.userId == uid2 && e.planDate == d2) = false := by
        rcases Decidable.not_and_iff_or_not.mp h2 with h4 | h4 <;> simp [h4]
      simp [h3]
  rw [h1]
  have h2 : ((renderActs uid d st.nextId acts).filter (fun e =>
      e.userId == uid2 && e.planDate == d2)) = [] := by
    rw [List.filter_eq_nil_iff]
    intro e he
    obtain ⟨h3, h4, -, -⟩ := renderActs_mem uid d st.nextId acts e he
    intro hcontra
    simp only [Bool.and_eq_true, beq_iff_eq] at hcontra
    exact h ⟨by rw [← hcontra.1, h3], by rw [← hcontra.2, h4]⟩
  rw [h2, List.append_nil]

theorem isEmpty_eq_of_length_eq {α β : Type} (l : List α) (l2 : List β)
    (h : l.length = l2.length) : l.isEmpty = l2.isEmpty := by
  cases l <;> cases l2 <;> simp_all

theorem applyDates_spec (uid : Nat) (tmplF : Int → List Activity)
    (ds : List Nat) : ∀ st : CalState, CalWF st → ds.Nodup →
    CalWF (applyDates uid tmplF ds st).1 ∧
    (∀ uid2 d2, (uid2 ≠ uid ∨ d2 ∉ ds) →
      listDailyPlansForDate (applyDates uid tmplF ds st).1 uid2 d2
        = listDailyPlansForDate st uid2 d2) ∧
    (∀ d ∈ ds,
      (listDailyPlansForDate (applyDates uid tmplF ds st).1 uid d).map
          PlanEntry.data
        = renderData uid d (tmplF (weekdayOf d : Int))) ∧
    (applyDates uid tmplF ds st).2.1
      = ds.filter (fun d => !(listDailyPlansForDate st uid d).isEmpty) := by
  induction ds with
  | nil =>
    intro st hWF _
    exact ⟨hWF, fun uid2 d2 _ => rfl, by simp, rfl⟩
  | cons d ds ih =>
    intro st hWF hnd
    have hndtail : ds.Nodup := (List.nodup_cons.mp hnd).2
    have hdnot : d ∉ ds := (List.nodup_cons.mp hnd).1
    have hWF1 : CalWF (applyPlanDay uid (tmplF (weekdayOf d : Int)) d st).1 :=
      applyPlanDay_WF uid _ d st hWF
    obtain ⟨ihWF, ihFrame, ihSelf, ihClr⟩ :=
      ih (applyPlanDay uid (tmplF (weekdayOf d : Int)) d st).1 hWF1 hndtail
    simp only [applyDates]
    refine ⟨ihWF, ?_, ?_, ?_⟩
    · intro uid2 d2 h
      have h1 : uid2 ≠ uid ∨ d2 ∉ ds := by
        rcases h with h | h
        · exact Or.inl h
        · exact Or.inr fun hc => h (List.mem_cons_of_mem d hc)
      have h2 : ¬(uid2 = uid ∧ d2 = d) := by
        rintro ⟨rfl, rfl⟩
        rcases h with h | h
        · exact h rfl
        · exact h (List.mem_cons_self d2 ds)
      rw [ihFrame uid2 d2 h1,
        applyPlanDay_query_other uid _ d st hWF uid2 d2 h2]
    · intro d2 hd2
      rcases List.mem_cons.mp hd2 with rfl | hd2
      · rw [ihFrame uid d2 (Or.inr hdnot),
          applyPlanDay_query_self uid _ d2 st hWF, renderActs_data]
      · exact ihSelf d2 hd2
    · have hflag : (applyPlanDay uid (tmplF (weekdayOf d : Int)) d st).2.1
          = !(listDailyPlansForDate st uid d).isEmpty := by
        rw [applyPlanDay_spec uid _ d st hWF]
      have hrest : (applyDates uid tmplF ds
            (applyPlanDay uid (tmplF (weekdayOf d : Int)) d st).1).2.1
          = ds.filter (fun d2 => !(listDailyPlansForDate st uid d2).isEmpty) := by
        rw [ihClr]
        refine List.filter_congr fun d2 hd2 => ?_
        have hne : ¬(uid = uid ∧ d2 = d) := by
          rintro ⟨-, rfl⟩
          exact hdnot hd2
        rw [applyPlanDay_query_other uid _ d st hWF uid d2 hne]
      rw [hflag, hrest, List.filter_cons]
      cases hie : (listDailyPlansForDate st uid d).isEmpty <;> simp [hie]

theorem dateRange_nodup (start days : Nat) : (dateRange start days).Nodup := by
  unfold dateRange
  exact (List.nodup_range ..).map fun a b h => by omega

/-- Claim C5: `apply_test_weekly_ai_plan` is idempotent and fully
overwrite-based per date: each run deletes every existing entry of the
user and date (recording the date as cleared when any existed) and then
inserts one entry per activity of that weekday's template, so applying the
same template twice to the same date range leaves, for every user and
date, the same entries (same dates, times, durations, distances, labels —
only the generated row ids differ), and the second run reports as cleared
exactly the dates of the range that received entries (the dates whose
weekday template is non-empty); the first run reports as cleared exactly
the dates of the range that already had entries. -/
theorem apply_plan_idempotent (uid : Nat) (tmpl : List DayTemplate)
    (startDate days : Nat) (st : CalState) (hWF : CalWF st) :
    (∀ uid2 d2,
      (listDailyPlansForDate
          (applyTestWeeklyAiPlan uid tmpl startDate days
            (applyTestWeeklyAiPlan uid tmpl startDate days st).1).1 uid2 d2).map
        PlanEntry.data
      = (listDailyPlansForDate
          (applyTestWeeklyAiPlan uid tmpl startDate days st).1 uid2 d2).map
        PlanEntry.data) ∧
    (applyTestWeeklyAiPlan uid tmpl startDate days
        (applyTestWeeklyAiPlan uid tmpl startDate days st).1).2.1
      = (dateRange startDate days).filter
          (fun d => !(templateByWeekday tmpl (weekdayOf d : Int)).isEmpty) ∧
    (applyTestWeeklyAiPlan uid tmpl startDate days st).2.1
      = (dateRange startDate days).filter
          (fun d => !(listDailyPlansForDate st uid d).isEmpty) := by
  have hnd := dateRange_nodup startDate days
  obtain ⟨hWF1, hFrame1, hSelf1, hClr1⟩ :=
    applyDates_spec uid (templateByWeekday tmpl) (dateRange startDate days)
      st hWF hnd
  unfold applyTestWeeklyAiPlan
  obtain ⟨hWF2, hFrame2, hSelf2, hClr2⟩ :=
    applyDates_spec uid (templateByWeekday tmpl) (dateRange startDate days)
      (applyDates uid (templateByWeekday tmpl) (dateRange startDate days) st).1
      hWF1 hnd
  refine ⟨?_, ?_, hClr1⟩
  · intro uid2 d2
    by_cases huid : uid2 = uid
    · subst huid
      by_cases hd : d2 ∈ dateRange startDate days
      · rw [hSelf2 d2 hd, hSelf1 d2 hd]
      · rw [hFrame2 uid2 d2 (Or.inr hd)]
    · rw [hFrame2 uid2 d2 (Or.inl huid)]
  · rw [hClr2]
    refine List.filter_congr fun d hd => ?_
    have hlen : (listDailyPlansForDate
        (applyDates uid (templateByWeekday tmpl) (dateRange startDate days)
          st).1 uid d).length
        = (templateByWeekday tmpl (weekdayOf d : Int)).length := by
      rw [← List.length_map _ PlanEntry.data, hSelf1 d hd]
      exact List.length_map ..
    rw [isEmpty_eq_of_length_eq _ _ hlen]

/-- A one-activity Monday template for the claim-C5 witness. -/
def tmplW : List DayTemplate := [⟨0, [⟨⟨7, 0⟩, 30, 5, "Easy run", none⟩]⟩]

/-- The empty calendar store. -/
def emptyCal : CalState := ⟨[], 0⟩

theorem apply_plan_idempotent_witness :
    CalWF emptyCal ∧
    ((∀ uid2 d2,
      (listDailyPlansForDate
          (applyTestWeeklyAiPlan 7 tmplW 0 2
            (applyTestWeeklyAiPlan 7 tmplW 0 2 emptyCal).1).1 uid2 d2).map
        PlanEntry.data
      = (listDailyPlansForDate
          (applyTestWeeklyAiPlan 7 tmplW 0 2 emptyCal).1 uid2 d2).map
        PlanEntry.data) ∧
    (applyTestWeeklyAiPlan 7 tmplW 0 2
        (applyTestWeeklyAiPlan 7 tmplW 0 2 emptyCal).1).2.1
      = (dateRange 0 2).filter
          (fun d => !(templateByWeekday tmplW (weekdayOf d : Int)).isEmpty) ∧
    (applyTestWeeklyAiPlan 7 tmplW 0 2 emptyCal).2.1
      = (dateRange 0 2).filter
          (fun d => !(listDailyPlansForDate emptyCal 7 d).isEmpty)) :=
  ⟨⟨by simp [emptyCal], by simp [emptyCal]⟩,
   apply_plan_idempotent 7 tmplW 0 2 emptyCal
     ⟨by simp [emptyCal], by simp [emptyCal]⟩⟩

/-! ## Time-of-day statistics (services.py: `_bucket_for_hour`,
`get_stats_time_of_day`) -/

/-- The five time-of-day buckets, in the iteration order of the source
dict. -/
inductive Bucket where
  | morning
  | forenoon
  | afternoon
  | evening
  | night
  deriving Repr, DecidableEq

/-- `_bucket_for_hour`: chained half-open hour ranges, everything else
(22–24 and 0–5) being night. -/
def bucketForHour (hour : Nat) : Bucket :=
  if 5 ≤ hour ∧ hour < 10 then .morning
  else if 10 ≤ hour ∧ hour < 14 then .forenoon
  else if 14 ≤ hour ∧ hour < 18 then .afternoon
  else if 18 ≤ hour ∧ hour < 22 then .evening
  else .night

/-- A session row as `stats_sessions_since` returns it, reduced to the
fields the distribution reads: the hour-of-day of the parsed start
instant, total distance, total duration. -/
structure StatSession where
  startedHour : Nat
  totalDistanceKm : Rat
  totalDurationSeconds : Int
  deriving Repr, DecidableEq

/-- The bucket keys in the insertion order of the source dict. -/
def bucketList : List Bucket :=
  [.morning, .forenoon, .afternoon, .evening, .night]

/-- One row of the `time_of_day_distribution` result list. -/
structure BucketRow where
  slot : Bucket
  sessions : Nat
  distanceKm : Rat
  durationSeconds : Int
  percentage : Rat
  deriving Repr, DecidableEq

/-- Python `round(x, 3)`. -/
def round3 (q : Rat) : Rat := (roundHalfEven (q * 1000) : Rat) / 1000

/-- Python `round(x, 4)`. -/
def round4 (q : Rat) : Rat := (roundHalfEven (q * 10000) : Rat) / 10000

/-- `get_stats_time_of_day` on the session rows of the selected range.
The accumulation loop tallies each session into exactly one bucket, so a
bucket's count and sums are the aggregates over the sessions assigned to
it, and `total_sessions` counts every session once; the guard
`if total_sessions > 0` makes the share 0 on an empty range instead of a
division. -/
def statsTimeOfDay (sessions : List StatSession) : List BucketRow × Nat :=
  let total := sessions.length
  (bucketList.map (fun b =>
    let inB := sessions.filter (fun s => bucketForHour s.startedHour == b)
    let pct : Rat :=
      if 0 < total then (inB.length : Rat) / (total : Rat) else 0
    ⟨b, inB.length, round3 ((inB.map (·.totalDistanceKm)).sum),
      (inB.map (·.totalDurationSeconds)).sum, round4 pct⟩),
   total)

theorem sum_bucket_indicator (b0 : Bucket) :
    (bucketList.map (fun b => if b0 == b then 1 else 0)).sum = 1 := by
  cases b0 <;> rfl

theorem sum_bucket_countP (sessions : List StatSession) :
    (bucketList.map (fun b =>
      sessions.countP (fun s => bucketForHour s.startedHour == b))).sum
    = sessions.length := by
  induction sessions with
  | nil => rfl
  | cons s rest ih =>
    simp only [bucketList, List.map_cons, List.map_nil, List.sum_cons,
      List.sum_nil, List.countP_cons] at ih ⊢
    have hone := sum_bucket_indicator (bucketForHour s.startedHour)
    simp only [bucketList, List.map_cons, List.map_nil, List.sum_cons,
      List.sum_nil] at hone
    simp only [List.length_cons]
    omega

theorem roundHalfEven_close (q : Rat) :
    |((roundHalfEven q : Int) : Rat) - q| ≤ 1 / 2 := by
  have h1 : ((⌊q⌋ : Int) : Rat) ≤ q := Int.floor_le q
  have h2 : q < (⌊q⌋ : Int) + 1 := Int.lt_floor_add_one q
  unfold roundHalfEven
  dsimp only
  split_ifs with hf hf2 hf3 <;>
    · rw [abs_le]
      constructor <;> push_cast at h1 h2 hf ⊢ <;> linarith

theorem round4_close (q : Rat) : |round4 q - q| ≤ 1 / 20000 := by
  unfold round4
  have key : ((roundHalfEven (q * 10000) : Int) : Rat) / 10000 - q
      = (((roundHalfEven (q * 10000) : Int) : Rat) - q * 10000) / 10000 := by
    ring
  rw [key, abs_div]
  have habs : |(10000 : Rat)| = 10000 := by norm_num
  rw [habs]
  have h := roundHalfEven_close (q * 10000)
  rw [show (1 / 20000 : Rat) = (1 / 2) / 10000 by norm_num]
  exact (div_le_div_iff_of_pos_right (by norm_num)).mpr h

theorem sum_map_div (l : List Bucket) (f : Bucket → Rat) (c : Rat) :
    (l.map (fun b => f b / c)).sum = (l.map f).sum / c := by
  induction l with
  | nil => simp
  | cons b l ih => simp [ih, add_div]

theorem bucket_shares_sum (sessions : List StatSession)
    (h : 0 < sessions.length) :
    (bucketList.map (fun b =>
      ((sessions.filter
          (fun s => bucketForHour s.startedHour == b)).length : Rat)
        / (sessions.length : Rat))).sum = 1 := by
  rw [sum_map_div]
  have hcast : ((bucketList.map (fun b =>
      ((sessions.filter
          (fun s => bucketForHour s.startedHour == b)).length : Rat))).sum)
      = ((sessions.length : Nat) : Rat) := by
    rw [← sum_bucket_countP sessions, Nat.cast_list_sum, List.map_map]
    refine congrArg List.sum (List.map_congr_left fun b _ => ?_)
    simp [List.countP_eq_length_filter]
  rw [hcast]
  exact div_self (Nat.cast_ne_zero.mpr (by omega))

/-- Claim C9: `get_stats_time_of_day` never divides by zero: a bucket's
share is its session count divided by the total session count when the
total is positive — the reported `percentage` field stores that share
rounded to 4 decimals, `round(percentage, 4)` — and is exactly 0 for
every bucket when the total is 0; consequently the five exact shares sum
to exactly 1 and the five reported shares sum to 1 within rounding
tolerance (at most 1/4000 away) whenever total sessions > 0, and every
reported share is 0 when total sessions = 0. -/
theorem stats_time_of_day_shares (sessions : List StatSession) :
    (sessions.length = 0 →
      ∀ r ∈ (statsTimeOfDay sessions).1, r.percentage = 0) ∧
    (0 < sessions.length →
      (∀ r ∈ (statsTimeOfDay sessions).1,
        r.percentage = round4 ((r.sessions : Rat) / (sessions.length : Rat))) ∧
      ((statsTimeOfDay sessions).1.map
        (fun r => (r.sessions : Rat) / (sessions.length : Rat))).sum = 1 ∧
      |((statsTimeOfDay sessions).1.map (·.percentage)).sum - 1| ≤ 1 / 4000) := by
  have hr0 : round4 0 = 0 := by norm_num [round4, roundHalfEven]
  constructor
  · intro h r hr
    unfold statsTimeOfDay at hr
    obtain ⟨b, -, rfl⟩ := List.mem_map.mp hr
    dsimp only
    rw [h]
    simp [hr0]
  · intro h
    refine ⟨?_, ?_, ?_⟩
    · intro r hr
      unfold statsTimeOfDay at hr
      obtain ⟨b, -, rfl⟩ := List.mem_map.mp hr
      dsimp only
      rw [if_pos h]
    · unfold statsTimeOfDay
      rw [List.map_map]
      have := bucket_shares_sum sessions h
      simpa [if_pos h] using this
    · have hsum := bucket_shares_sum sessions h
      unfold statsTimeOfDay
      simp only [bucketList, List.map_cons, List.map_nil, List.sum_cons,
        List.sum_nil] at hsum ⊢
      simp only [if_pos h]
      have e1 := round4_close (((sessions.filter
        (fun s => bucketForHour s.startedHour == Bucket.morning)).length : Rat)
          / (sessions.length : Rat))
      have e2 := round4_close (((sessions.filter
        (fun s => bucketForHour s.startedHour == Bucket.forenoon)).length : Rat)
          / (sessions.length : Rat))
      have e3 := round4_close (((sessions.filter
        (fun s => bucketForHour s.startedHour == Bucket.afternoon)).length : Rat)
          / (sessions.length : Rat))
      have e4 := round4_close (((sessions.filter
        (fun s => bucketForHour s.startedHour == Bucket.evening)).length : Rat)
          / (sessions.length : Rat))
      have e5 := round4_close (((sessions.filter
        (fun s => bucketForHour s.startedHour == Bucket.night)).length : Rat)
          / (sessions.length : Rat))
      rw [abs_le] at e1 e2 e3 e4 e5 ⊢
      constructor <;> linarith

/-- Three sessions (two morning starts, one forenoon start) for the
claim-C9 witness. -/
def statSessionsW : List StatSession :=
  [⟨6, 5, 1800⟩, ⟨6, 3, 900⟩, ⟨11, 4, 1200⟩]

theorem stats_time_of_day_shares_witness :
    (∀ r ∈ (statsTimeOfDay ([] : List StatSession)).1, r.percentage = 0) ∧
    ((∀ r ∈ (statsTimeOfDay statSessionsW).1,
        r.percentage
          = round4 ((r.sessions : Rat) / (statSessionsW.length : Rat))) ∧
      ((statsTimeOfDay statSessionsW).1.map
        (fun r => (r.sessions : Rat) / (statSessionsW.length : Rat))).sum = 1 ∧
      |((statsTimeOfDay statSessionsW).1.map (·.percentage)).sum - 1|
        ≤ 1 / 4000) :=
  ⟨(stats_time_of_day_shares []).1 rfl,
   (stats_time_of_day_shares statSessionsW).2 (by decide)⟩

end RunTrack
